import Mathlib

/-!
Verification of the persistence layer of `journal_todo`
(`packages/desktop/src-tauri/src/db/`): the generic SQL execution bridge
(`commands.rs`) and the migration engine (`migration.rs`), shallowly
embedded in Lean.  The embedding keeps the Rust names where possible.
The SQLite engine itself, driven through `sqlx`, is external to the
repository: statement execution is abstracted by an engine record, while
everything the repository's own code does (parameter binding, result
decoding, migration ordering, the transaction protocol of
`apply_migration`, the skip/mark/abort logic of `run`) is translated
from the source.
-/

/-! ## Dynamic values (`serde_json::Value`) -/

/-- Model of a finite (non-NaN, non-infinite) IEEE-754 double, identified by
its bit pattern.  `serde_json` numbers are never NaN or infinite, and SQLite
`REAL` stores an 8-byte double exactly, so every operation in this
development only carries such a value around unchanged; no floating-point
arithmetic is modelled. -/
structure F64 where
  bits : Nat
deriving DecidableEq

/-- Abstract stand-in for the lossy `as f64` cast applied by
`serde_json::Number::as_f64` to integers (used only when `as_i64` has
failed, i.e. outside the signed 64-bit range).  No theorem depends on the
value produced, only on the fact that the result is a float. -/
def i64ToF64 (n : Int) : F64 :=
  ⟨(n % (2 : Int) ^ 64).toNat⟩

/-- Model of `serde_json::Number`: an integral number held exactly (the
`i64`/`u64` variants), or a finite double (the `f64` variant). -/
inductive JNumber where
  | int (n : Int)
  | float (x : F64)
deriving DecidableEq

/-- Model of `serde_json::Number::as_i64`: succeeds exactly on integral
numbers within the signed 64-bit range. -/
def jNumberAsI64 : JNumber → Option Int
  | .int n => if -(2 ^ 63) ≤ n ∧ n < 2 ^ 63 then some n else none
  | .float _ => none

/-- Model of `serde_json::Number::as_f64`: integral numbers are cast
(lossily, via `i64ToF64`), doubles are returned as they are. -/
def jNumberAsF64 : JNumber → Option F64
  | .int n => some (i64ToF64 n)
  | .float x => some x

/-- Model of `serde_json::Value`, the dynamic value type used for request
parameters and decoded cells.  Objects are modelled as the ordered list of
entries held by the underlying map. -/
inductive Json where
  | null
  | bool (b : Bool)
  | num (n : JNumber)
  | str (s : String)
  | arr (xs : List Json)
  | obj (kvs : List (String × Json))

/-! ## JSON serialization (`serde_json::to_string`) -/

/-- Lowercase hex digit for `\u00XX` escapes. -/
def hexDigit (n : Nat) : Char :=
  if n < 10 then Char.ofNat (48 + n) else Char.ofNat (87 + n)

/-- Four-digit lowercase hex rendering of a code point below 0x20. -/
def hex4 (n : Nat) : String :=
  String.mk [hexDigit (n / 4096 % 16), hexDigit (n / 256 % 16),
             hexDigit (n / 16 % 16), hexDigit (n % 16)]

/-- Escape of one character inside a JSON string literal, as `serde_json`
emits it. -/
def escapeJsonChar (c : Char) : String :=
  if c = '"' then "\\\""
  else if c = '\\' then "\\\\"
  else if c = Char.ofNat 8 then "\\b"
  else if c = Char.ofNat 9 then "\\t"
  else if c = Char.ofNat 10 then "\\n"
  else if c = Char.ofNat 12 then "\\f"
  else if c = Char.ofNat 13 then "\\r"
  else if c.toNat < 32 then "\\u" ++ hex4 c.toNat
  else String.mk [c]

/-- JSON string literal (quotes plus escapes). -/
def quoteJson (s : String) : String :=
  "\"" ++ String.join (s.data.map escapeJsonChar) ++ "\""

/-- Textual form of a float inside serialized JSON.  `serde_json` uses the
ryu shortest-representation algorithm, which is not reproduced here; no
claim depends on the textual form of a serialized float, only on
serialization being a function of the value. -/
def f64ToString (x : F64) : String :=
  toString x.bits

mutual
/-- Model of `serde_json::to_string` on a `Value` (compact encoding). -/
def jsonSerialize : Json → String
  | .null => "null"
  | .bool true => "true"
  | .bool false => "false"
  | .num (.int n) => toString n
  | .num (.float x) => f64ToString x
  | .str s => quoteJson s
  | .arr xs => "[" ++ jsonSerializeList xs ++ "]"
  | .obj kvs => "\x7b" ++ jsonSerializeObj kvs ++ "\x7d"

/-- Comma-separated serialization of array elements. -/
def jsonSerializeList : List Json → String
  | [] => ""
  | [x] => jsonSerialize x
  | x :: y :: xs => jsonSerialize x ++ "," ++ jsonSerializeList (y :: xs)

/-- Comma-separated serialization of object entries. -/
def jsonSerializeObj : List (String × Json) → String
  | [] => ""
  | [(k, v)] => quoteJson k ++ ":" ++ jsonSerialize v
  | (k, v) :: y :: xs => quoteJson k ++ ":" ++ jsonSerialize v ++ "," ++ jsonSerializeObj (y :: xs)
end

/-! ## Native SQLite values and the decoder (`sqlx_value_to_json`) -/

/-- A native SQLite value by storage class.  Blobs are byte lists. -/
inductive SqliteValue where
  | null
  | int (i : Int)
  | real (x : F64)
  | text (s : String)
  | blob (bs : List Nat)
deriving DecidableEq

/-- True exactly on text values (used to phrase the default decoding arm). -/
def SqliteValue.isText : SqliteValue → Bool
  | .text _ => true
  | _ => false

/-- UTF-8 decoding of a byte list with explicit fuel (one byte of the input
is consumed per fuel unit, so `fuel = length` always suffices); models the
validation performed by Rust's `String::from_utf8`: continuation bytes must
be in the ranges mandated for each leading byte, which excludes overlong
forms, surrogates and code points above 0x10FFFF. -/
def utf8DecodeFuel : Nat → List Nat → Option (List Char)
  | _, [] => some []
  | 0, _ :: _ => none
  | fuel + 1, b :: rest =>
    if b ≤ 0x7F then
      (utf8DecodeFuel fuel rest).map (Char.ofNat b :: ·)
    else if 0xC2 ≤ b ∧ b ≤ 0xDF then
      match rest with
      | c1 :: r =>
        if 0x80 ≤ c1 ∧ c1 ≤ 0xBF then
          (utf8DecodeFuel fuel r).map (Char.ofNat ((b - 0xC0) * 64 + (c1 - 0x80)) :: ·)
        else none
      | [] => none
    else if 0xE0 ≤ b ∧ b ≤ 0xEF then
      match rest with
      | c1 :: c2 :: r =>
        let lo1 := if b = 0xE0 then 0xA0 else 0x80
        let hi1 := if b = 0xED then 0x9F else 0xBF
        if (lo1 ≤ c1 ∧ c1 ≤ hi1) ∧ (0x80 ≤ c2 ∧ c2 ≤ 0xBF) then
          (utf8DecodeFuel fuel r).map
            (Char.ofNat ((b - 0xE0) * 4096 + (c1 - 0x80) * 64 + (c2 - 0x80)) :: ·)
        else none
      | _ => none
    else if 0xF0 ≤ b ∧ b ≤ 0xF4 then
      match rest with
      | c1 :: c2 :: c3 :: r =>
        let lo1 := if b = 0xF0 then 0x90 else 0x80
        let hi1 := if b = 0xF4 then 0x8F else 0xBF
        if (lo1 ≤ c1 ∧ c1 ≤ hi1) ∧ (0x80 ≤ c2 ∧ c2 ≤ 0xBF) ∧ (0x80 ≤ c3 ∧ c3 ≤ 0xBF) then
          (utf8DecodeFuel fuel r).map
            (Char.ofNat ((b - 0xF0) * 262144 + (c1 - 0x80) * 4096 + (c2 - 0x80) * 64 + (c3 - 0x80)) :: ·)
        else none
      | _ => none
    else none

/-- Model of `String::from_utf8`: `some` of the decoded string on valid
UTF-8 input, `none` on invalid bytes. -/
def fromUtf8 (bs : List Nat) : Option String :=
  (utf8DecodeFuel bs.length bs).map String.mk

/-- Model of `sqlx_value_to_json` (commands.rs lines 52-92): decode one cell
given the column type name reported by the engine and the stored value.
Each `row.try_get::<Option<T>>` of the source is modelled as succeeding on a
stored value of the matching storage class (`Ok(Some ..)`), on `NULL`
(`Ok(None)`), and as the `Err(_)` arm otherwise; every `Err(_)` arm of the
source maps the cell to `Null`. -/
def sqlx_value_to_json (typeName : String) (v : SqliteValue) : Json :=
  if typeName = "INTEGER" then
    match v with
    | .int i => .num (.int i)
    | _ => .null
  else if typeName = "REAL" then
    match v with
    | .real x => .num (.float x)
    | _ => .null
  else if typeName = "TEXT" then
    match v with
    | .text s => .str s
    | _ => .null
  else if typeName = "BLOB" then
    match v with
    | .blob bs =>
      match fromUtf8 bs with
      | some s => .str s
      | none => .null
    | _ => .null
  else if typeName = "NULL" then
    .null
  else
    match v with
    | .text s => .str s
    | _ => .null

/-! ## Requests, rows and the execution bridge (`commands.rs`) -/

/-- Model of `SqlRequest`: one statement, its positional parameters and the
result-shape selector. -/
structure SqlRequest where
  sql : String
  params : List Json
  method : String

/-- Model of `SqlRow`: column names in order, and the decoded values in the
same order. -/
structure SqlRow where
  columns : List String
  rows : List Json

/-- Model of `SqlResponse`. -/
structure SqlResponse where
  rows : List SqlRow

/-- One row as produced by the engine: for each cell, the column name, the
column type name reported by the engine, and the stored value. -/
structure EngineRow where
  cells : List (String × String × SqliteValue)

/-- Abstract SQLite engine as driven through `sqlx`: `exec` models
`query.execute` on the pool (the affected-row count is discarded by the
source, so only success or failure is kept), `fetchAll` models
`query.fetch_all`.  Both receive the SQL text and the bound parameters. -/
structure SqlEngine where
  exec : String → List SqliteValue → Except String Unit
  fetchAll : String → List SqliteValue → Except String (List EngineRow)

/-- Model of the parameter-binding loop of `execute_sql_internal`
(commands.rs lines 103-127): null binds a native NULL, booleans bind as the
engine's integer 0/1 (how `sqlx` encodes `bool` for SQLite), numbers bind as
a signed 64-bit integer when `as_i64` succeeds and as a double otherwise
(failing with "Invalid number parameter" when neither conversion applies),
strings bind as text, and arrays/objects are serialized to their JSON text
first and bound as text. -/
def bindParam : Json → Except String SqliteValue
  | .null => .ok .null
  | .bool b => .ok (.int (if b then 1 else 0))
  | .num n =>
    match jNumberAsI64 n with
    | some i => .ok (.int i)
    | none =>
      match jNumberAsF64 n with
      | some x => .ok (.real x)
      | none => .error "Invalid number parameter"
  | .str s => .ok (.text s)
  | .arr xs => .ok (.text (jsonSerialize (.arr xs)))
  | .obj kvs => .ok (.text (jsonSerialize (.obj kvs)))

/-- Binding of all parameters in order; the first failure aborts, as the
source's early `return Err(..)` does. -/
def bindParams : List Json → Except String (List SqliteValue)
  | [] => .ok []
  | p :: ps =>
    match bindParam p with
    | .error e => .error e
    | .ok v =>
      match bindParams ps with
      | .error e => .error e
      | .ok vs => .ok (v :: vs)

/-- Model of `row_to_sql_row` (commands.rs lines 39-49): the column-name
list in engine order, and one decoded value per column index. -/
def row_to_sql_row (r : EngineRow) : SqlRow :=
  { columns := r.cells.map Prod.fst
  , rows := r.cells.map (fun c => sqlx_value_to_json c.2.1 c.2.2) }

/-- Model of `execute_sql_internal` (commands.rs lines 96-150): bind all
parameters, then branch on the method: exactly the string "run" executes for
effect and answers with an empty row list; any other method fetches all
matching rows and decodes each one. -/
def execute_sql_internal (eng : SqlEngine) (request : SqlRequest) :
    Except String SqlResponse :=
  match bindParams request.params with
  | .error e => .error e
  | .ok bound =>
    if request.method = "run" then
      match eng.exec request.sql bound with
      | .error e => .error e
      | .ok _ => .ok ⟨[]⟩
    else
      match eng.fetchAll request.sql bound with
      | .error e => .error e
      | .ok rows => .ok ⟨rows.map row_to_sql_row⟩

/-- Corresponding declared column type for a bound native value: the type
name under which the decoder dispatches when the column's declared type
matches the storage class of the value (the names `sqlx` reports for SQLite
columns). -/
def declaredTypeOf : SqliteValue → String
  | .null => "NULL"
  | .int _ => "INTEGER"
  | .real _ => "REAL"
  | .text _ => "TEXT"
  | .blob _ => "BLOB"

/-- Round trip of one dynamic value: bind it as a parameter, then decode the
stored native value back through a column of the corresponding declared
type. -/
def roundTrip (v : Json) : Except String Json :=
  match bindParam v with
  | .error e => .error e
  | .ok nv => .ok (sqlx_value_to_json (declaredTypeOf nv) nv)

/-! ## String helpers for the migration engine -/

/-- Whether `l` begins with `pat` (model of `str::starts_with` on char
lists). -/
def listBeginsWith : List Char → List Char → Bool
  | _, [] => true
  | [], _ :: _ => false
  | a :: as, b :: bs => a = b && listBeginsWith as bs

/-- Whether `pat` occurs somewhere inside `hay` (char-list worker). -/
def substrAux (pat : List Char) : List Char → Bool
  | [] => listBeginsWith [] pat
  | c :: t => listBeginsWith (c :: t) pat || substrAux pat t

/-- Model of `str::contains` with a string pattern. -/
def containsSubstr (hay pat : String) : Bool :=
  substrAux pat.data hay.data

/-- Split a char list at every occurrence of `sep` (the separator is
dropped). -/
def splitOnChar (sep : Char) : List Char → List (List Char)
  | [] => [[]]
  | c :: rest =>
    if c = sep then [] :: splitOnChar sep rest
    else
      match splitOnChar sep rest with
      | h :: t => (c :: h) :: t
      | [] => [[c]]

/-- Drop one trailing carriage return, as `str::lines` does per line. -/
def stripCr (l : List Char) : List Char :=
  match l.getLast? with
  | some c => if c = Char.ofNat 13 then l.dropLast else l
  | none => l

/-- Model of `str::lines`: split at every newline, drop a final empty
segment (a trailing newline does not produce an extra line), and strip one
trailing carriage return from each line. -/
def rustLines (s : String) : List String :=
  let parts := splitOnChar (Char.ofNat 10) s.data
  let parts := if parts.getLast? = some [] then parts.dropLast else parts
  parts.map (fun l => String.mk (stripCr l))

/-- Model of `str::trim` (whitespace removed from both ends). -/
def trimChars (l : List Char) : List Char :=
  (((l.dropWhile Char.isWhitespace).reverse.dropWhile Char.isWhitespace)).reverse

/-- Join lines back with a newline separator. -/
def joinLines : List String → String
  | [] => ""
  | [l] => l
  | l :: m :: ls => l ++ "\n" ++ joinLines (m :: ls)

/-- Model of `Path::extension` on a file name: the segment after the last
dot, or `none` when there is no dot or the only dot is the leading one of a
hidden file. -/
def fileExtension (name : String) : Option String :=
  match splitOnChar '.' name.data with
  | [] => none
  | [_] => none
  | first :: rest =>
    if first.isEmpty && rest.length == 1 then none
    else (rest.getLast?).map String.mk

/-- Lexicographic comparison of char lists: on the first differing position
the smaller character decides; a list is not greater than its extensions.
This is code-point order, which on UTF-8 encoded strings coincides with the
byte order `Vec::<String>::sort` uses. -/
def leChars : List Char → List Char → Bool
  | [], _ => true
  | _ :: _, [] => false
  | a :: as, b :: bs => if a = b then leChars as bs else decide (a < b)

/-- Lexicographic `≤` on strings as a boolean. -/
def strLeB (a b : String) : Bool :=
  leChars a.data b.data

/-- Insert a string into a sorted list, keeping it sorted. -/
def insertSorted (x : String) : List String → List String
  | [] => [x]
  | y :: ys => if strLeB x y then x :: y :: ys else y :: insertSorted x ys

/-- Insertion sort by `strLeB`.  `Vec::sort` is a stable sort by the total
lexicographic order, and the output of any stable sort under a total order
is unique, so insertion sort models it exactly. -/
def sortFiles : List String → List String
  | [] => []
  | x :: xs => insertSorted x (sortFiles xs)

/-! ## The migration engine (`migration.rs`) -/

/-- The migrations directory as the engine sees it: whether the directory
exists, and the directory entries, each carrying the file's name and the
outcome of reading its contents (`Except.error` is an unreadable file; the
message stands for the OS error text).  The entry order plays the role of
the unspecified `read_dir` order. -/
structure FS where
  dirExists : Bool
  entries : List (String × Except String String)

/-- Reading one file of the migrations directory by name (model of
`fs::read_to_string` on the composed path). -/
def readFile (fs : FS) (f : String) : Except String String :=
  match fs.entries.find? (fun e => e.1 == f) with
  | some e => e.2
  | none => .error "No such file or directory"

/-- Database state as the migration engine observes it: the schema part is
abstract (type `σ`, advanced statement by statement by the engine), the
tracking table `__migration__` is the list of recorded names in insertion
order.  Its `name` column is UNIQUE; `applied_at` plays no role in the
logic and is omitted. -/
structure MigDB (σ : Type) where
  schema : σ
  tracking : List String

/-- Abstract statement executor: one SQL statement run against the current
schema state either advances it or fails with the engine's message
(e.g. a "... already exists" message for a create conflict). -/
structure MigEngine (σ : Type) where
  execStmt : σ → String → Except String σ

/-- Model of `Migration::setup_migration_table`: `CREATE TABLE IF NOT
EXISTS` of the tracking table.  The tracking table is always present in
this model, so the idempotent create is the identity. -/
def Migration.setup_migration_table {σ : Type} (db : MigDB σ) : Except String (MigDB σ) :=
  .ok db

/-- Model of `Migration::is_migration_applied` (migration.rs lines
120-131): a `SELECT id .. WHERE name = ? LIMIT 1` probe of the tracking
table, true exactly when the name is recorded. -/
def Migration.is_migration_applied {σ : Type} (db : MigDB σ) (name : String) : Bool :=
  db.tracking.contains name

/-- Model of `Migration::mark_migration_applied` (migration.rs lines
134-145): `INSERT OR IGNORE` of the name into the tracking table. -/
def Migration.mark_migration_applied {σ : Type} (db : MigDB σ) (name : String) : MigDB σ :=
  if db.tracking.contains name then db
  else ⟨db.schema, db.tracking ++ [name]⟩

/-- Model of `Migration::get_migration_files` (migration.rs lines 92-117):
error when the directory is absent, otherwise the names of the entries
whose extension is `sql`, sorted. -/
def Migration.get_migration_files (fs : FS) (dir : String) : Except String (List String) :=
  if fs.dirExists = false then
    .error ("Migration folder not found: " ++ dir)
  else
    .ok (sortFiles ((fs.entries.map Prod.fst).filter (fun n => fileExtension n == some "sql")))

/-- Statement-breakpoint stripping of `apply_migration` (migration.rs lines
150-154): drop every line whose trimmed form starts with the Drizzle
breakpoint marker, and rejoin the rest with newlines. -/
def cleanSql (sql : String) : String :=
  joinLines ((rustLines sql).filter
    (fun l => !(listBeginsWith (trimChars l.data) ['-', '-', '>'])))

/-- The statement loop inside `apply_migration`'s transaction: execute the
parsed statements in source order against the schema, prefixing a failure
with the migration name (`format!("\x7b\x7d: \x7b\x7d", name, e)`). -/
def execStmts {σ : Type} (eng : MigEngine σ) (name : String) :
    σ → List String → Except String σ
  | s, [] => .ok s
  | s, stmt :: rest =>
    match eng.execStmt s stmt with
    | .error e => .error (name ++ ": " ++ e)
    | .ok s' => execStmts eng name s' rest

/-- Model of `Migration::apply_migration` (migration.rs lines 148-182):
strip breakpoint lines, parse the remaining text into statements (the
`sqlparser` call is the abstract `parse` argument), then, inside one
transaction, execute every statement in order and insert the plain `INSERT`
tracking record; commit only when everything succeeded.  A failure anywhere
returns the error and, because the transaction is dropped uncommitted and
rolled back, leaves the caller's database state unchanged — which the
functional reading models by the caller keeping its old `MigDB`.  The
tracking insert hits the UNIQUE constraint on `name` when the record
already exists. -/
def Migration.apply_migration {σ : Type} (parse : String → Except String (List String))
    (eng : MigEngine σ) (db : MigDB σ) (name sql : String) : Except String (MigDB σ) :=
  match parse (cleanSql sql) with
  | .error e => .error e
  | .ok statements =>
    match execStmts eng name db.schema statements with
    | .error e => .error e
    | .ok schema' =>
      if db.tracking.contains name then
        .error "UNIQUE constraint failed: __migration__.name"
      else
        .ok ⟨schema', db.tracking ++ [name]⟩

/-- One iteration of the `for file in migration_files` loop of
`Migration::run` (migration.rs lines 30-65): read the file (aborting on a
read error), skip it when already recorded, otherwise apply it; an apply
error whose message contains "already exists" marks the file applied and
continues, any other apply error aborts.  `Sum.inl` is "continue with this
state and count", `Sum.inr` is "abort with this state and error". -/
def runStep {σ : Type} (parse : String → Except String (List String)) (eng : MigEngine σ)
    (fs : FS) (db : MigDB σ) (count : Nat) (file : String) :
    (MigDB σ × Nat) ⊕ (MigDB σ × String) :=
  match readFile fs file with
  | .error ioe => .inr (db, "Failed to read migration " ++ file ++ ": " ++ ioe)
  | .ok sql =>
    if Migration.is_migration_applied db file then .inl (db, count)
    else
      match Migration.apply_migration parse eng db file sql with
      | .ok db' => .inl (db', count + 1)
      | .error err =>
        if containsSubstr err "already exists" then
          .inl (Migration.mark_migration_applied db file, count + 1)
        else .inr (db, err)

/-- The migration loop over the sorted file list.  The final database state
is returned alongside the outcome: on success the count of migrations
applied in this call (the source's `migrations_count`), on abort the error;
either way the state is exactly what committed. -/
def runFrom {σ : Type} (parse : String → Except String (List String)) (eng : MigEngine σ)
    (fs : FS) : List String → MigDB σ → Nat → MigDB σ × Except String Nat
  | [], db, count => (db, .ok count)
  | file :: rest, db, count =>
    match runStep parse eng fs db count file with
    | .inl (db', count') => runFrom parse eng fs rest db' count'
    | .inr (db', e) => (db', .error e)

/-- Model of `Migration::run` (migration.rs lines 23-73): ensure the
tracking table, list and sort the migration files, then run the loop
starting from zero applied migrations. -/
def Migration.run {σ : Type} (parse : String → Except String (List String))
    (eng : MigEngine σ) (fs : FS) (dir : String) (db : MigDB σ) :
    MigDB σ × Except String Nat :=
  match Migration.setup_migration_table db with
  | .error e => (db, .error e)
  | .ok db0 =>
    match Migration.get_migration_files fs dir with
    | .error e => (db0, .error e)
    | .ok files => runFrom parse eng fs files db0 0

/-! ## Concrete fixtures used by witnesses and counterexamples -/

/-- A parser that yields the whole (cleaned) script as one statement. -/
def wParse : String → Except String (List String) := fun s => .ok [s]

/-- A parser that yields the two fixed statements "S1" and "DUP". -/
def wParseTwo : String → Except String (List String) := fun _ => .ok ["S1", "DUP"]

/-- A schema engine over a statement log: the statement "FAIL" fails with a
plain error, "DUP" fails with a create conflict, anything else is appended
to the log. -/
def wEng : MigEngine (List String) :=
  ⟨fun log stmt =>
    if stmt = "FAIL" then .error "boom"
    else if stmt = "DUP" then .error "table t already exists"
    else .ok (log ++ [stmt])⟩

/-- One readable migration file. -/
def wFS1 : FS := ⟨true, [("0001_init.sql", .ok "CREATE TABLE a;")]⟩

/-- Three migrations (listed out of order, plus a non-sql file); the middle
one fails. -/
def wFS2 : FS :=
  ⟨true, [("0002_b.sql", .ok "FAIL"), ("0001_a.sql", .ok "OK1"),
          ("0003_c.sql", .ok "OK3"), ("readme.md", .ok "not a migration")]⟩

/-- One migration whose statements are supplied by `wParseTwo`. -/
def wFS3 : FS := ⟨true, [("0001_a.sql", .ok "seed")]⟩

/-- One unreadable migration file. -/
def wFS4 : FS := ⟨true, [("0001_init.sql", .error "permission denied")]⟩

/-- The same file, readable. -/
def wFS4ok : FS := ⟨true, [("0001_init.sql", .ok "CREATE TABLE a;")]⟩

/-- An absent migrations directory. -/
def wFSmissing : FS := ⟨false, []⟩

/-- A database state that already records `0001_init.sql` as applied. -/
def wDB4 : MigDB (List String) := ⟨[], ["0001_init.sql"]⟩

/-- A sample engine row: an integer id column and a text name column. -/
def wRow : EngineRow := ⟨[("id", "INTEGER", .int 1), ("name", "TEXT", .text "Alice")]⟩

/-- A SQL engine whose statements execute successfully and whose fetches
return two rows. -/
def wSqlEng : SqlEngine := ⟨fun _ _ => .ok (), fun _ _ => .ok [wRow, wRow]⟩

/-- A mutating request using the "run" method. -/
def wRunReq : SqlRequest := ⟨"INSERT INTO t (id) VALUES (?)", [.num (.int 1)], "run"⟩

/-- A query request using the "get" method. -/
def wGetReq : SqlRequest := ⟨"SELECT id, name FROM t WHERE id = ?", [.num (.int 1)], "get"⟩

/-! ## Helper lemmas: the lexicographic comparator and the sort -/

theorem leChars_total : ∀ x y : List Char, leChars x y = true ∨ leChars y x = true
  | [], _ => Or.inl rfl
  | _ :: _, [] => Or.inr rfl
  | a :: as, b :: bs => by
    by_cases hab : a = b
    · subst hab
      simpa [leChars] using leChars_total as bs
    · rcases lt_or_gt_of_ne hab with h | h
      · exact Or.inl (by simp [leChars, hab, h])
      · exact Or.inr (by simp [leChars, Ne.symm hab, h])

theorem leChars_trans : ∀ x y z : List Char,
    leChars x y = true → leChars y z = true → leChars x z = true
  | [], _, _, _, _ => rfl
  | _ :: _, [], _, h1, _ => by simp [leChars] at h1
  | _ :: _, _ :: _, [], _, h2 => by simp [leChars] at h2
  | a :: as, b :: bs, c :: cs, h1, h2 => by
    by_cases hab : a = b <;> by_cases hbc : b = c
    · subst hab; subst hbc
      simp only [leChars, if_pos rfl] at h1 h2 ⊢
      exact leChars_trans as bs cs h1 h2
    · subst hab
      simp only [leChars, if_pos rfl] at h1
      simp only [leChars, if_neg hbc, decide_eq_true_iff] at h2
      simp [leChars, ne_of_lt h2, h2]
    · subst hbc
      simp only [leChars, if_neg hab, decide_eq_true_iff] at h1
      simp [leChars, hab, h1]
    · simp only [leChars, if_neg hab, decide_eq_true_iff] at h1
      simp only [leChars, if_neg hbc, decide_eq_true_iff] at h2
      have hac : a < c := lt_trans h1 h2
      simp [leChars, ne_of_lt hac, hac]

theorem leChars_iff_not_lex : ∀ x y : List Char,
    leChars x y = true ↔ ¬ List.Lex (· < ·) y x
  | [], y => iff_of_true rfl (List.Lex.not_nil_right _ y)
  | a :: as, [] => by
    apply iff_of_false
    · simp [leChars]
    · intro h; exact h List.Lex.nil
  | a :: as, b :: bs => by
    by_cases hab : a = b
    · subst hab
      simpa only [leChars, if_pos rfl, List.Lex.cons_iff] using leChars_iff_not_lex as bs
    · simp only [leChars, if_neg hab, decide_eq_true_iff]
      constructor
      · intro hlt hlex
        cases hlex with
        | rel h => exact lt_asymm hlt h
        | cons h => exact hab rfl
      · intro hnlex
        rcases lt_or_gt_of_ne hab with h | h
        · exact h
        · have h' : b < a := h
          exact absurd (List.Lex.rel h') hnlex

theorem strLeB_le (a b : String) : strLeB a b = true ↔ a ≤ b := by
  rw [String.le_iff_toList_le, ← not_lt]
  exact leChars_iff_not_lex a.toList b.toList

theorem strLeB_total (a b : String) : strLeB a b = true ∨ strLeB b a = true :=
  leChars_total a.data b.data

theorem strLeB_trans {a b c : String} (h1 : strLeB a b = true) (h2 : strLeB b c = true) :
    strLeB a c = true :=
  leChars_trans a.data b.data c.data h1 h2

theorem insertSorted_perm (x : String) : ∀ l : List String,
    (insertSorted x l).Perm (x :: l)
  | [] => List.Perm.refl _
  | y :: ys => by
    cases h : strLeB x y with
    | true => simp [insertSorted, h]
    | false =>
      simp only [insertSorted, h, Bool.false_eq_true, if_false]
      exact ((insertSorted_perm x ys).cons y).trans (List.Perm.swap x y ys)

theorem sortFiles_perm : ∀ l : List String, (sortFiles l).Perm l
  | [] => List.Perm.refl _
  | x :: xs => (insertSorted_perm x (sortFiles xs)).trans ((sortFiles_perm xs).cons x)

theorem insertSorted_pairwise (x : String) : ∀ l : List String,
    l.Pairwise (fun a b => strLeB a b = true) →
    (insertSorted x l).Pairwise (fun a b => strLeB a b = true)
  | [], _ => by simp [insertSorted]
  | y :: ys, h => by
    rw [List.pairwise_cons] at h
    obtain ⟨hy, hys⟩ := h
    cases hxy : strLeB x y with
    | true =>
      simp only [insertSorted, hxy, if_true]
      rw [List.pairwise_cons]
      refine ⟨?_, List.pairwise_cons.mpr ⟨hy, hys⟩⟩
      intro b hb
      rcases List.mem_cons.mp hb with rfl | hb
      · exact hxy
      · exact strLeB_trans hxy (hy b hb)
    | false =>
      simp only [insertSorted, hxy, Bool.false_eq_true, if_false]
      rw [List.pairwise_cons]
      refine ⟨?_, insertSorted_pairwise x ys hys⟩
      intro b hb
      rcases List.mem_cons.mp ((insertSorted_perm x ys).mem_iff.mp hb) with rfl | hbys
      · rcases strLeB_total b y with h | h
        · exact absurd h (by rw [hxy]; exact Bool.false_ne_true)
        · exact h
      · exact hy b hbys

theorem sortFiles_pairwise : ∀ l : List String,
    (sortFiles l).Pairwise (fun a b => strLeB a b = true)
  | [] => List.Pairwise.nil
  | x :: xs => insertSorted_pairwise x (sortFiles xs) (sortFiles_pairwise xs)

theorem sortFiles_sorted_le (l : List String) : (sortFiles l).Pairwise (· ≤ ·) :=
  (sortFiles_pairwise l).imp (fun h => (strLeB_le _ _).mp h)

/-! ## Helper lemmas: the migration loop -/

theorem contains_iff_mem (l : List String) (a : String) : l.contains a = true ↔ a ∈ l :=
  ⟨fun h => List.mem_of_elem_eq_true h, fun h => List.elem_eq_true_of_mem h⟩

theorem mark_not_contains {σ : Type} (db : MigDB σ) (f : String)
    (h : db.tracking.contains f = false) :
    Migration.mark_migration_applied db f = ⟨db.schema, db.tracking ++ [f]⟩ := by
  unfold Migration.mark_migration_applied
  rw [h]
  simp

theorem apply_migration_ok_tracking {σ : Type} (parse : String → Except String (List String))
    (eng : MigEngine σ) (db : MigDB σ) (name sql : String) (db' : MigDB σ)
    (h : Migration.apply_migration parse eng db name sql = .ok db') :
    db'.tracking = db.tracking ++ [name] := by
  unfold Migration.apply_migration at h
  split at h
  · exact Except.noConfusion h
  · split at h
    · exact Except.noConfusion h
    · split at h
      · exact Except.noConfusion h
      · rw [← Except.ok.inj h]

theorem runStep_eq_read_err {σ : Type} (parse : String → Except String (List String))
    (eng : MigEngine σ) (fs : FS) (db : MigDB σ) (count : Nat) (f ioe : String)
    (hrf : readFile fs f = .error ioe) :
    runStep parse eng fs db count f = .inr (db, "Failed to read migration " ++ f ++ ": " ++ ioe) := by
  unfold runStep
  rw [hrf]

theorem runStep_eq_skip {σ : Type} (parse : String → Except String (List String))
    (eng : MigEngine σ) (fs : FS) (db : MigDB σ) (count : Nat) (f sql : String)
    (hrf : readFile fs f = .ok sql) (happ : Migration.is_migration_applied db f = true) :
    runStep parse eng fs db count f = .inl (db, count) := by
  unfold runStep
  rw [hrf]
  simp [happ]

theorem runStep_eq_apply_ok {σ : Type} (parse : String → Except String (List String))
    (eng : MigEngine σ) (fs : FS) (db db' : MigDB σ) (count : Nat) (f sql : String)
    (hrf : readFile fs f = .ok sql) (happ : Migration.is_migration_applied db f = false)
    (hap : Migration.apply_migration parse eng db f sql = .ok db') :
    runStep parse eng fs db count f = .inl (db', count + 1) := by
  unfold runStep
  rw [hrf]
  simp [happ, hap]

theorem runStep_eq_already_exists {σ : Type} (parse : String → Except String (List String))
    (eng : MigEngine σ) (fs : FS) (db : MigDB σ) (count : Nat) (f sql err : String)
    (hrf : readFile fs f = .ok sql) (happ : Migration.is_migration_applied db f = false)
    (hap : Migration.apply_migration parse eng db f sql = .error err)
    (hsub : containsSubstr err "already exists" = true) :
    runStep parse eng fs db count f = .inl (Migration.mark_migration_applied db f, count + 1) := by
  unfold runStep
  rw [hrf]
  simp [happ, hap, hsub]

theorem runStep_eq_fail {σ : Type} (parse : String → Except String (List String))
    (eng : MigEngine σ) (fs : FS) (db : MigDB σ) (count : Nat) (f sql err : String)
    (hrf : readFile fs f = .ok sql) (happ : Migration.is_migration_applied db f = false)
    (hap : Migration.apply_migration parse eng db f sql = .error err)
    (hsub : containsSubstr err "already exists" = false) :
    runStep parse eng fs db count f = .inr (db, err) := by
  unfold runStep
  rw [hrf]
  simp [happ, hap, hsub]

theorem runStep_spec {σ : Type} (parse : String → Except String (List String))
    (eng : MigEngine σ) (fs : FS) (db : MigDB σ) (count : Nat) (f : String) :
    (∀ db' c', runStep parse eng fs db count f = .inl (db', c') →
      (db'.tracking = db.tracking ∨ db'.tracking = db.tracking ++ [f]) ∧
      f ∈ db'.tracking ∧ ∃ s, readFile fs f = .ok s) ∧
    (∀ db' e, runStep parse eng fs db count f = .inr (db', e) → db' = db) := by
  cases hrf : readFile fs f with
  | error ioe =>
    rw [runStep_eq_read_err parse eng fs db count f ioe hrf]
    constructor
    · intro db' c' h
      exact Sum.noConfusion h
    · intro db' e h
      exact (congrArg Prod.fst (Sum.inr.inj h)).symm
  | ok sql =>
    cases happ : Migration.is_migration_applied db f with
    | true =>
      rw [runStep_eq_skip parse eng fs db count f sql hrf happ]
      constructor
      · intro db' c' h
        have hdb : db = db' := congrArg Prod.fst (Sum.inl.inj h)
        subst hdb
        exact ⟨Or.inl rfl, (contains_iff_mem _ _).mp happ, sql, rfl⟩
      · intro db' e h
        exact Sum.noConfusion h
    | false =>
      cases hap : Migration.apply_migration parse eng db f sql with
      | ok db1 =>
        rw [runStep_eq_apply_ok parse eng fs db db1 count f sql hrf happ hap]
        constructor
        · intro db' c' h
          have hdb : db1 = db' := congrArg Prod.fst (Sum.inl.inj h)
          subst hdb
          have htr := apply_migration_ok_tracking parse eng db f sql db1 hap
          refine ⟨Or.inr htr, ?_, sql, rfl⟩
          rw [htr]
          exact List.mem_append_right _ (List.mem_singleton_self f)
        · intro db' e h
          exact Sum.noConfusion h
      | error err =>
        cases hsub : containsSubstr err "already exists" with
        | true =>
          rw [runStep_eq_already_exists parse eng fs db count f sql err hrf happ hap hsub]
          constructor
          · intro db' c' h
            have hdb : Migration.mark_migration_applied db f = db' :=
              congrArg Prod.fst (Sum.inl.inj h)
            subst hdb
            rw [mark_not_contains db f happ]
            exact ⟨Or.inr rfl, List.mem_append_right _ (List.mem_singleton_self f), sql, rfl⟩
          · intro db' e h
            exact Sum.noConfusion h
        | false =>
          rw [runStep_eq_fail parse eng fs db count f sql err hrf happ hap hsub]
          constructor
          · intro db' c' h
            exact Sum.noConfusion h
          · intro db' e h
            exact (congrArg Prod.fst (Sum.inr.inj h)).symm

theorem runFrom_tracking {σ : Type} (parse : String → Except String (List String))
    (eng : MigEngine σ) (fs : FS) :
    ∀ (files : List String) (db : MigDB σ) (c : Nat),
      ∃ l, ((runFrom parse eng fs files db c).1).tracking = db.tracking ++ l ∧
        l.Sublist files
  | [], db, c => ⟨[], by simp [runFrom], List.nil_sublist _⟩
  | f :: rest, db, c => by
    rw [runFrom]
    rcases hstep : runStep parse eng fs db c f with ⟨db1, c1⟩ | ⟨db1, e⟩
    · obtain ⟨htr, _, _⟩ := (runStep_spec parse eng fs db c f).1 db1 c1 hstep
      obtain ⟨l, hl, hsub⟩ := runFrom_tracking parse eng fs rest db1 c1
      rcases htr with h | h
      · exact ⟨l, by simp [hl, h], hsub.cons f⟩
      · refine ⟨f :: l, ?_, hsub.cons₂ f⟩
        simp only [hl, h, List.append_assoc, List.singleton_append]
    · have hdb : db1 = db := (runStep_spec parse eng fs db c f).2 db1 e hstep
      subst hdb
      exact ⟨[], by simp, List.nil_sublist _⟩

theorem runFrom_processed {σ : Type} (parse : String → Except String (List String))
    (eng : MigEngine σ) (fs : FS) :
    ∀ (files : List String) (db db' : MigDB σ) (c c' : Nat),
      runFrom parse eng fs files db c = (db', .ok c') →
      ∀ f ∈ files, (∃ s, readFile fs f = .ok s) ∧ f ∈ db'.tracking
  | [], db, db', c, c', h, f, hf => absurd hf (List.not_mem_nil f)
  | g :: rest, db, db', c, c', h, f, hf => by
    rcases hstep : runStep parse eng fs db c g with ⟨db1, c1⟩ | ⟨db1, e⟩
    · simp only [runFrom, hstep] at h
      rcases List.mem_cons.mp hf with rfl | hfr
      · obtain ⟨_, hmem, hread⟩ := (runStep_spec parse eng fs db c f).1 db1 c1 hstep
        refine ⟨hread, ?_⟩
        obtain ⟨l, hl, _⟩ := runFrom_tracking parse eng fs rest db1 c1
        rw [h] at hl
        rw [hl]
        exact List.mem_append_left l hmem
      · exact runFrom_processed parse eng fs rest db1 db' c1 c' h f hfr
    · simp only [runFrom, hstep] at h
      exact absurd (congrArg Prod.snd h) (by simp)

theorem runFrom_skip {σ : Type} (parse : String → Except String (List String))
    (eng : MigEngine σ) (fs : FS) :
    ∀ (files : List String) (db : MigDB σ) (c : Nat),
      (∀ f ∈ files, (∃ s, readFile fs f = .ok s) ∧ f ∈ db.tracking) →
      runFrom parse eng fs files db c = (db, .ok c)
  | [], db, c, _ => rfl
  | f :: rest, db, c, h => by
    obtain ⟨⟨sql, hrf⟩, hmem⟩ := h f (List.mem_cons_self f rest)
    rw [runFrom, runStep_eq_skip parse eng fs db c f sql hrf
      ((contains_iff_mem _ _).mpr hmem)]
    exact runFrom_skip parse eng fs rest db c
      (fun g hg => h g (List.mem_cons_of_mem f hg))

theorem runFrom_append_ok {σ : Type} (parse : String → Except String (List String))
    (eng : MigEngine σ) (fs : FS) :
    ∀ (l₁ l₂ : List String) (db db0 : MigDB σ) (c c0 : Nat),
      runFrom parse eng fs l₁ db c = (db0, .ok c0) →
      runFrom parse eng fs (l₁ ++ l₂) db c = runFrom parse eng fs l₂ db0 c0
  | [], l₂, db, db0, c, c0, h => by
    obtain ⟨h1, h2⟩ := Prod.mk.inj h
    rw [List.nil_append, h1, Except.ok.inj h2]
  | f :: rest, l₂, db, db0, c, c0, h => by
    rcases hstep : runStep parse eng fs db c f with ⟨db1, c1⟩ | ⟨db1, e⟩
    · simp only [runFrom, hstep] at h
      simp only [List.cons_append, runFrom, hstep]
      exact runFrom_append_ok parse eng fs rest l₂ db1 db0 c1 c0 h
    · simp only [runFrom, hstep] at h
      exact absurd (congrArg Prod.snd h) (by simp)

/-! ## Claim theorems: the execution bridge -/

/-- C6: for every SqlRequest whose method equals "run" and whose statement
executes without an engine error, `execute_sql_internal` returns a
SqlResponse whose row list is empty, regardless of the statement type or
the number of affected rows (the abstract engine's `exec` discards both). -/
theorem run_method_returns_empty_rows (eng : SqlEngine) (req : SqlRequest)
    (resp : SqlResponse) (hm : req.method = "run")
    (hok : execute_sql_internal eng req = .ok resp) : resp.rows = [] := by
  unfold execute_sql_internal at hok
  rcases hb : bindParams req.params with e | bound
  · simp only [hb] at hok
    exact Except.noConfusion hok
  · simp only [hb] at hok
    rw [hm, if_pos rfl] at hok
    rcases hx : eng.exec req.sql bound with e | u
    · simp only [hx] at hok
      exact Except.noConfusion hok
    · simp only [hx] at hok
      exact (congrArg SqlResponse.rows (Except.ok.inj hok)).symm

/-- Witness for C6: a concrete INSERT through the "run" method yields an
empty row list. -/
theorem run_method_returns_empty_rows_witness :
    execute_sql_internal wSqlEng wRunReq = .ok ⟨[]⟩ ∧
    (SqlResponse.mk []).rows = [] :=
  ⟨rfl, run_method_returns_empty_rows wSqlEng wRunReq ⟨[]⟩ rfl rfl⟩

/-- C10: for every SqlRequest whose method is any string other than exactly
"run" — "get", "all" or unrecognized values alike — `execute_sql_internal`
fetches and returns all matching rows: the method value is never validated
or rejected, and a "get" request is not limited to a single row (a query
matching N rows returns all N). -/
theorem non_run_method_fetches_all (eng : SqlEngine) (req : SqlRequest)
    (bound : List SqliteValue) (rows : List EngineRow)
    (hm : req.method ≠ "run")
    (hb : bindParams req.params = .ok bound)
    (hf : eng.fetchAll req.sql bound = .ok rows) :
    execute_sql_internal eng req = .ok ⟨rows.map row_to_sql_row⟩ ∧
    ∀ resp, execute_sql_internal eng req = .ok resp → resp.rows.length = rows.length := by
  have hmain : execute_sql_internal eng req = .ok ⟨rows.map row_to_sql_row⟩ := by
    unfold execute_sql_internal
    simp only [hb]
    rw [if_neg hm]
    simp only [hf]
  refine ⟨hmain, ?_⟩
  intro resp hresp
  rw [hmain] at hresp
  rw [← Except.ok.inj hresp]
  simp

/-- Witness for C10: a "get" request whose query matches two rows returns
both rows. -/
theorem non_run_method_fetches_all_witness :
    execute_sql_internal wSqlEng wGetReq = .ok ⟨[row_to_sql_row wRow, row_to_sql_row wRow]⟩ ∧
    ∀ resp, execute_sql_internal wSqlEng wGetReq = .ok resp → resp.rows.length = 2 := by
  have h := non_run_method_fetches_all wSqlEng wGetReq [SqliteValue.int 1] [wRow, wRow]
    (by decide) rfl rfl
  exact ⟨h.1, fun resp hr => h.2 resp hr⟩

/-- C9: every SqlRow produced via `row_to_sql_row` has column and value
lists of equal length, and the values are aligned positionally with the
column names in the engine's column order. -/
theorem sql_row_shape_aligned (r : EngineRow) (i : Nat) (h : i < r.cells.length) :
    (row_to_sql_row r).columns.length = (row_to_sql_row r).rows.length ∧
    (row_to_sql_row r).columns[i]? = some (r.cells.get ⟨i, h⟩).1 ∧
    (row_to_sql_row r).rows[i]? =
      some (sqlx_value_to_json (r.cells.get ⟨i, h⟩).2.1 (r.cells.get ⟨i, h⟩).2.2) := by
  refine ⟨by simp [row_to_sql_row], ?_, ?_⟩
  · simp [row_to_sql_row, List.getElem?_map, List.getElem?_eq_getElem h,
      List.get_eq_getElem]
  · simp [row_to_sql_row, List.getElem?_map, List.getElem?_eq_getElem h,
      List.get_eq_getElem]

/-- Witness for C9 at a concrete two-column row and index 0. -/
theorem sql_row_shape_aligned_witness :
    (row_to_sql_row wRow).columns.length = (row_to_sql_row wRow).rows.length ∧
    (row_to_sql_row wRow).columns[0]? = some (wRow.cells.get ⟨0, by decide⟩).1 ∧
    (row_to_sql_row wRow).rows[0]? =
      some (sqlx_value_to_json (wRow.cells.get ⟨0, by decide⟩).2.1
        (wRow.cells.get ⟨0, by decide⟩).2.2) :=
  sql_row_shape_aligned wRow 0 (by decide)

/-- C8: cell decoding is total and fail-soft: a decoded row always keeps the
shape of the engine row (one value per cell, so a failing cell never aborts
the row or the query), a blob cell holding non-UTF-8 bytes decodes to null,
and a cell of an unrecognized column type whose value is not text decodes
to null. -/
theorem cell_decode_total_fail_soft :
    (∀ r : EngineRow, (row_to_sql_row r).columns.length = r.cells.length ∧
      (row_to_sql_row r).rows.length = r.cells.length) ∧
    (∀ bs, fromUtf8 bs = none → sqlx_value_to_json "BLOB" (SqliteValue.blob bs) = Json.null) ∧
    (∀ tn v, tn ≠ "INTEGER" → tn ≠ "REAL" → tn ≠ "TEXT" → tn ≠ "BLOB" → tn ≠ "NULL" →
      SqliteValue.isText v = false → sqlx_value_to_json tn v = Json.null) := by
  refine ⟨fun r => ⟨by simp [row_to_sql_row], by simp [row_to_sql_row]⟩, ?_, ?_⟩
  · intro bs h
    simp [sqlx_value_to_json, h]
  · intro tn v h1 h2 h3 h4 h5 hv
    unfold sqlx_value_to_json
    rw [if_neg h1, if_neg h2, if_neg h3, if_neg h4, if_neg h5]
    cases v <;> simp_all [SqliteValue.isText]

/-- Witness for C8: shape preservation on a concrete row, the byte 0xFF as
a non-UTF-8 blob decoding to null, and a BOOLEAN-typed integer cell
decoding to null. -/
theorem cell_decode_total_fail_soft_witness :
    ((row_to_sql_row wRow).rows.length = wRow.cells.length) ∧
    sqlx_value_to_json "BLOB" (SqliteValue.blob [255]) = Json.null ∧
    sqlx_value_to_json "BOOLEAN" (SqliteValue.int 1) = Json.null := by
  obtain ⟨h1, h2, h3⟩ := cell_decode_total_fail_soft
  exact ⟨(h1 wRow).2, h2 [255] (by decide),
    h3 "BOOLEAN" (SqliteValue.int 1) (by decide) (by decide) (by decide) (by decide)
      (by decide) rfl⟩

/-- C7 counterexample: the claim allows exactly two round-trip exceptions
(structured values and non-UTF-8 blobs), but booleans are a third: binding
`true` stores the native integer 1, and decoding it back through the
corresponding column yields the number 1, not the boolean `true`. -/
theorem bool_roundtrip_counterexample :
    roundTrip (Json.bool true) = .ok (Json.num (JNumber.int 1)) ∧
    Json.num (JNumber.int 1) ≠ Json.bool true :=
  ⟨rfl, fun h => Json.noConfusion h⟩

/-- C7 (amended): binding a supported dynamic value and decoding it back
through a column of the corresponding declared type round-trips null,
signed-64-bit integers, floats and strings exactly; arrays and objects
round-trip as their canonical JSON text; additionally (beyond the claim's
two stated exceptions) booleans come back as the integer 0 or 1 rather than
as booleans, integers outside the signed 64-bit range are bound lossily as
floats and come back as float numbers, and blob columns holding non-UTF-8
bytes decode to null. -/
theorem value_roundtrip_by_kind :
    (roundTrip Json.null = .ok Json.null) ∧
    (∀ s, roundTrip (Json.str s) = .ok (Json.str s)) ∧
    (∀ x, roundTrip (Json.num (JNumber.float x)) = .ok (Json.num (JNumber.float x))) ∧
    (∀ n : Int, -(2 ^ 63) ≤ n → n < 2 ^ 63 →
      roundTrip (Json.num (JNumber.int n)) = .ok (Json.num (JNumber.int n))) ∧
    (∀ xs, roundTrip (Json.arr xs) = .ok (Json.str (jsonSerialize (Json.arr xs)))) ∧
    (∀ kvs, roundTrip (Json.obj kvs) = .ok (Json.str (jsonSerialize (Json.obj kvs)))) ∧
    (∀ b, roundTrip (Json.bool b) = .ok (Json.num (JNumber.int (if b then 1 else 0))) ∧
      Json.num (JNumber.int (if b then 1 else 0)) ≠ Json.bool b) ∧
    (∀ n : Int, n < -(2 ^ 63) ∨ 2 ^ 63 ≤ n →
      roundTrip (Json.num (JNumber.int n)) = .ok (Json.num (JNumber.float (i64ToF64 n))) ∧
      Json.num (JNumber.float (i64ToF64 n)) ≠ Json.num (JNumber.int n)) ∧
    (∀ bs, fromUtf8 bs = none → sqlx_value_to_json "BLOB" (SqliteValue.blob bs) = Json.null) := by
  refine ⟨rfl, fun s => rfl, fun x => rfl, ?_, fun xs => rfl, fun kvs => rfl, ?_, ?_, ?_⟩
  · intro n h1 h2
    have hi : jNumberAsI64 (JNumber.int n) = some n := by
      simp only [jNumberAsI64]
      rw [if_pos ⟨h1, h2⟩]
    simp [roundTrip, bindParam, hi, declaredTypeOf, sqlx_value_to_json]
  · intro b
    refine ⟨by cases b <;> rfl, fun h => Json.noConfusion h⟩
  · intro n h
    have hcond : ¬(-(2 ^ 63) ≤ n ∧ n < 2 ^ 63) := by
      rcases h with h | h
      · exact fun hc => absurd hc.1 (not_le.mpr h)
      · exact fun hc => absurd hc.2 (not_lt.mpr h)
    have hi : jNumberAsI64 (JNumber.int n) = none := by
      simp only [jNumberAsI64]
      rw [if_neg hcond]
    refine ⟨?_, ?_⟩
    · simp [roundTrip, bindParam, hi, jNumberAsF64, declaredTypeOf, sqlx_value_to_json]
    · intro hx
      injection hx with hx'
      exact JNumber.noConfusion hx'
  · intro bs h
    simp [sqlx_value_to_json, h]

/-- Witness for C7 (amended): a signed-64-bit integer round-trips exactly,
an integer just past the signed range comes back as a float number, and the
byte 0xFF in a blob decodes to null. -/
theorem value_roundtrip_by_kind_witness :
    roundTrip (Json.num (JNumber.int 42)) = .ok (Json.num (JNumber.int 42)) ∧
    roundTrip (Json.num (JNumber.int (2 ^ 63))) =
      .ok (Json.num (JNumber.float (i64ToF64 (2 ^ 63)))) ∧
    sqlx_value_to_json "BLOB" (SqliteValue.blob [255]) = Json.null := by
  obtain ⟨h1, h2, h3, h4, h5, h6, h7, h8, h9⟩ := value_roundtrip_by_kind
  exact ⟨h4 42 (by decide) (by decide), (h8 (2 ^ 63) (Or.inr (by decide))).1,
    h9 [255] (by decide)⟩

/-! ## Claim theorems: the migration engine -/

theorem get_migration_files_absent (fs : FS) (dir : String) (hne : fs.dirExists = false) :
    Migration.get_migration_files fs dir = .error ("Migration folder not found: " ++ dir) := by
  unfold Migration.get_migration_files
  rw [hne, if_pos rfl]

theorem get_migration_files_ok (fs : FS) (dir : String) (files : List String)
    (hg : Migration.get_migration_files fs dir = .ok files) :
    files = sortFiles ((fs.entries.map Prod.fst).filter (fun n => fileExtension n == some "sql")) := by
  unfold Migration.get_migration_files at hg
  split at hg
  · exact Except.noConfusion hg
  · exact (Except.ok.inj hg).symm

/-- C1: `run` is idempotent as a whole: after a first successful run,
running again with the same file system and the resulting database applies
zero new migrations and leaves the database — in particular the tracking
table — unchanged, inserting no new or duplicate records. -/
theorem run_idempotent {σ : Type} (parse : String → Except String (List String))
    (eng : MigEngine σ) (fs : FS) (dir : String) (db db' : MigDB σ) (n : Nat)
    (h : Migration.run parse eng fs dir db = (db', .ok n)) :
    Migration.run parse eng fs dir db' = (db', .ok 0) := by
  unfold Migration.run at h ⊢
  simp only [Migration.setup_migration_table] at h ⊢
  rcases hg : Migration.get_migration_files fs dir with e | files
  · simp only [hg] at h
    exact absurd (congrArg Prod.snd h) (by simp)
  · simp only [hg] at h ⊢
    exact runFrom_skip parse eng fs files db' 0
      (runFrom_processed parse eng fs files db db' 0 n h)

/-- Witness for C1: one migration applies on the first run; the second run
applies zero migrations and returns the database unchanged. -/
theorem run_idempotent_witness :
    Migration.run wParse wEng wFS1 "migrations" ⟨[], []⟩ =
      ((⟨["CREATE TABLE a;"], ["0001_init.sql"]⟩ : MigDB (List String)), .ok 1) ∧
    Migration.run wParse wEng wFS1 "migrations" ⟨["CREATE TABLE a;"], ["0001_init.sql"]⟩ =
      (⟨["CREATE TABLE a;"], ["0001_init.sql"]⟩, .ok 0) :=
  ⟨rfl, run_idempotent wParse wEng wFS1 "migrations" ⟨[], []⟩
    ⟨["CREATE TABLE a;"], ["0001_init.sql"]⟩ 1 rfl⟩

/-- C2: when a pending migration fails for a reason other than a
pre-existing object, `run` aborts immediately with that error and the final
database state is exactly what had committed before that migration: the
failing migration's statements do not persist (its transaction rolled
back, so the state is the pre-migration `db0`), no tracking record for it
is inserted, and the remaining files are left unapplied. -/
theorem run_aborts_on_failed_migration {σ : Type}
    (parse : String → Except String (List String)) (eng : MigEngine σ) (fs : FS)
    (dir : String) (db db0 : MigDB σ) (pre rest : List String) (f sql err : String) (c0 : Nat)
    (hg : Migration.get_migration_files fs dir = .ok (pre ++ f :: rest))
    (hpre : runFrom parse eng fs pre db 0 = (db0, .ok c0))
    (hrf : readFile fs f = .ok sql)
    (happ : Migration.is_migration_applied db0 f = false)
    (hap : Migration.apply_migration parse eng db0 f sql = .error err)
    (hsub : containsSubstr err "already exists" = false) :
    Migration.run parse eng fs dir db = (db0, .error err) := by
  unfold Migration.run
  simp only [Migration.setup_migration_table, hg]
  rw [runFrom_append_ok parse eng fs pre (f :: rest) db db0 0 c0 hpre]
  simp only [runFrom, runStep_eq_fail parse eng fs db0 c0 f sql err hrf happ hap hsub]

/-- Witness for C2: of three migrations, the first commits, the second
fails with a plain error; the run aborts with the second file's error, the
state keeps exactly the first migration's work, and the third file is never
applied. -/
theorem run_aborts_on_failed_migration_witness :
    Migration.run wParse wEng wFS2 "migrations" ⟨[], []⟩ =
      ((⟨["OK1"], ["0001_a.sql"]⟩ : MigDB (List String)), .error "0002_b.sql: boom") :=
  run_aborts_on_failed_migration wParse wEng wFS2 "migrations" ⟨[], []⟩
    ⟨["OK1"], ["0001_a.sql"]⟩ ["0001_a.sql"] ["0003_c.sql"] "0002_b.sql" "FAIL"
    "0002_b.sql: boom" 1 rfl rfl rfl rfl rfl rfl

/-- C3 counterexample: the claim says the "already exists" path "does not
roll back anything already done", but the failing migration's own
transaction is rolled back: here the first statement "S1" executes
successfully before the second statement fails with "already exists", yet
after `run` the schema contains no trace of "S1" — the run still marks the
file applied and completes. -/
theorem already_exists_rollback_counterexample :
    Migration.run wParseTwo wEng wFS3 "migrations" ⟨[], []⟩ =
      ((⟨[], ["0001_a.sql"]⟩ : MigDB (List String)), .ok 1) ∧
    wEng.execStmt [] "S1" = .ok ["S1"] ∧
    "S1" ∉ (Migration.run wParseTwo wEng wFS3 "migrations" ⟨[], []⟩).1.schema :=
  ⟨rfl, rfl, by decide⟩

/-- C3 (amended): when applying a pending migration fails with an error
containing "already exists", `run` rolls back that migration's own
transaction (the schema is left as it was before the migration), inserts a
tracking record marking the file applied, and continues with the remaining
files instead of aborting. -/
theorem already_exists_marks_applied_and_continues {σ : Type}
    (parse : String → Except String (List String)) (eng : MigEngine σ) (fs : FS)
    (db : MigDB σ) (c : Nat) (f sql err : String) (rest : List String)
    (hrf : readFile fs f = .ok sql)
    (happ : Migration.is_migration_applied db f = false)
    (hap : Migration.apply_migration parse eng db f sql = .error err)
    (hsub : containsSubstr err "already exists" = true) :
    runFrom parse eng fs (f :: rest) db c =
      runFrom parse eng fs rest ⟨db.schema, db.tracking ++ [f]⟩ (c + 1) := by
  simp only [runFrom, runStep_eq_already_exists parse eng fs db c f sql err hrf happ hap hsub]
  rw [mark_not_contains db f happ]

/-- Witness for C3 (amended): the concrete "already exists" migration
continues the loop with the schema unchanged and the file recorded. -/
theorem already_exists_marks_applied_and_continues_witness :
    runFrom wParseTwo wEng wFS3 ["0001_a.sql"] ⟨[], []⟩ 0 =
      runFrom wParseTwo wEng wFS3 [] ⟨[], ["0001_a.sql"]⟩ 1 ∧
    runFrom wParseTwo wEng wFS3 [] ⟨[], ["0001_a.sql"]⟩ 1 =
      ((⟨[], ["0001_a.sql"]⟩ : MigDB (List String)), .ok 1) :=
  ⟨already_exists_marks_applied_and_continues wParseTwo wEng wFS3 ⟨[], []⟩ 0 "0001_a.sql"
    "seed" "0001_a.sql: table t already exists" [] rfl rfl rfl rfl, rfl⟩

/-- C4 counterexample: the claim says an already-applied file is skipped
without reading its contents, but `run` reads every listed file before the
applied check: with the applied file unreadable the run aborts with a read
error, while with the same file readable it succeeds — so the outcome
depends on reading a file the claim says is never read. -/
theorem applied_file_still_read_counterexample :
    Migration.run wParse wEng wFS4 "migrations" wDB4 =
      (wDB4, .error "Failed to read migration 0001_init.sql: permission denied") ∧
    Migration.run wParse wEng wFS4ok "migrations" wDB4 = (wDB4, .ok 0) :=
  ⟨rfl, rfl⟩

/-- C4 (amended): a migration file whose name is already recorded as
applied is skipped without being parsed and without touching the database
or the count — but its contents are still read first, and a read failure
aborts the run even for an already-applied file. -/
theorem applied_file_skip_no_parse {σ : Type}
    (parse : String → Except String (List String)) (eng : MigEngine σ) (fs : FS)
    (db : MigDB σ) (c : Nat) (f sql : String) (rest : List String) :
    (readFile fs f = .ok sql → Migration.is_migration_applied db f = true →
      runFrom parse eng fs (f :: rest) db c = runFrom parse eng fs rest db c) ∧
    (∀ ioe, readFile fs f = .error ioe →
      runFrom parse eng fs (f :: rest) db c =
        (db, .error ("Failed to read migration " ++ f ++ ": " ++ ioe))) := by
  constructor
  · intro hrf happ
    simp only [runFrom, runStep_eq_skip parse eng fs db c f sql hrf happ]
  · intro ioe hrf
    simp only [runFrom, runStep_eq_read_err parse eng fs db c f ioe hrf]

/-- Witness for C4 (amended): the applied file is skipped when readable,
and an unreadable applied file aborts the loop with the read error. -/
theorem applied_file_skip_no_parse_witness :
    runFrom wParse wEng wFS4ok ["0001_init.sql"] wDB4 0 = runFrom wParse wEng wFS4ok [] wDB4 0 ∧
    runFrom wParse wEng wFS4 ["0001_init.sql"] wDB4 0 =
      (wDB4, .error "Failed to read migration 0001_init.sql: permission denied") :=
  ⟨(applied_file_skip_no_parse wParse wEng wFS4ok wDB4 0 "0001_init.sql" "CREATE TABLE a;" []).1
      rfl rfl,
    (applied_file_skip_no_parse wParse wEng wFS4 wDB4 0 "0001_init.sql" "unused" []).2
      "permission denied" rfl⟩

/-- C5: `run` fails when the migrations directory is absent; the file list
it works from drops files without the sql extension and is sorted
lexicographically (a permutation of the sql-named entries, pairwise `≤`);
and the migrations any run applies extend the tracking table in exactly
that sorted order (the newly appended record names form a sorted sublist of
the file list). -/
theorem run_lists_sorts_and_applies_in_order {σ : Type}
    (parse : String → Except String (List String)) (eng : MigEngine σ) (fs : FS)
    (dir : String) (db db' : MigDB σ) (files : List String) (res : Except String Nat) :
    (fs.dirExists = false →
      Migration.run parse eng fs dir db =
        (db, .error ("Migration folder not found: " ++ dir))) ∧
    (Migration.get_migration_files fs dir = .ok files →
      files.Perm ((fs.entries.map Prod.fst).filter (fun n => fileExtension n == some "sql")) ∧
      files.Pairwise (· ≤ ·)) ∧
    (Migration.run parse eng fs dir db = (db', res) →
      Migration.get_migration_files fs dir = .ok files →
      ∃ l, db'.tracking = db.tracking ++ l ∧ l.Sublist files ∧ l.Pairwise (· ≤ ·)) := by
  refine ⟨?_, ?_, ?_⟩
  · intro hne
    unfold Migration.run
    simp only [Migration.setup_migration_table, get_migration_files_absent fs dir hne]
  · intro hg
    rw [get_migration_files_ok fs dir files hg]
    exact ⟨sortFiles_perm _, sortFiles_sorted_le _⟩
  · intro hrun hg
    have hsorted : files.Pairwise (· ≤ ·) := by
      rw [get_migration_files_ok fs dir files hg]
      exact sortFiles_sorted_le _
    unfold Migration.run at hrun
    simp only [Migration.setup_migration_table, hg] at hrun
    obtain ⟨l, hl, hsub⟩ := runFrom_tracking parse eng fs files db 0
    rw [hrun] at hl
    exact ⟨l, hl, hsub, hsorted.sublist hsub⟩

/-- Witness for C5: a missing directory fails the run; the concrete
directory of three sql files and one other file yields the sorted sql list,
which is pairwise ordered. -/
theorem run_lists_sorts_and_applies_in_order_witness :
    Migration.run wParse wEng wFSmissing "migs" (⟨[], []⟩ : MigDB (List String)) =
      (⟨[], []⟩, .error "Migration folder not found: migs") ∧
    (["0001_a.sql", "0002_b.sql", "0003_c.sql"] : List String).Pairwise (· ≤ ·) :=
  ⟨(run_lists_sorts_and_applies_in_order wParse wEng wFSmissing "migs" ⟨[], []⟩ ⟨[], []⟩
      [] (.ok 0)).1 rfl,
   ((run_lists_sorts_and_applies_in_order wParse wEng wFS2 "migrations" ⟨[], []⟩ ⟨[], []⟩
      ["0001_a.sql", "0002_b.sql", "0003_c.sql"] (.ok 0)).2.1 rfl).2⟩
